import Mathlib

set_option linter.unusedVariables false

/-! Verification of the submission path of the interLink SLURM sidecar plugin
(`pkg/slurm/Create.go` with the declarations of `pkg/slurm/types.go`): the
runtime selection `createRuntime`, the memory-size parser `parseMem`, the
per-pod resource-limit aggregation loop of `SubmitHandler`, the per-container
command assembly, and the submission orchestration with its error paths.
Collaborators that live in other files of the repository (mount/env/image
preparation, script generation, batch submission, job-id recording, cleanup,
`handleError`) are modelled as oracles at their interface boundary. -/

/-- Container descriptor: the fields of a pod container that `SubmitHandler`
reads: the name, the declared CPU limit
(`container.Resources.Limits.Cpu().AsApproximateFloat64()`, modelled as a
rational) and the declared memory limit in bytes
(`container.Resources.Limits.Memory().AsInt64()`). -/
structure Container where
  name : String
  cpu : ℚ
  mem : Int
deriving DecidableEq, Repr

/-- Go `cpuLimitFromContainer := int64(math.Ceil(cpuLimitFloat))`
(Create.go line 123). -/
def cpuLimitFromContainer (container : Container) : Int :=
  ⌈container.cpu⌉

/-- Resource aggregation state of the `SubmitHandler` loop: the flags
`isDefaultCPU`/`isDefaultRam`, the bookkeeping variables `maxCPULimit` and
`maxMemoryLimit` (Go `int`), the running values `cpuLimit` and `memoryLimit`
(Go `int64`), and the `resourceLimits` aggregate, whose fields
`resourceLimits.CPU` and `resourceLimits.Memory` are named `rlCPU` and
`rlMemory` here. -/
structure AggState where
  isDefaultCPU : Bool
  isDefaultRam : Bool
  maxCPULimit : Int
  maxMemoryLimit : Int
  cpuLimit : Int
  memoryLimit : Int
  rlCPU : Int
  rlMemory : Int
deriving DecidableEq, Repr

/-- CPU branch of the aggregation loop (Create.go lines 125-135). -/
def aggStepCPU (s : AggState) (cpuL : Int) : AggState :=
  if cpuL = 0 ∧ s.isDefaultCPU = true then
    { s with rlCPU := 1 }
  else if cpuL > s.rlCPU ∧ s.maxCPULimit < cpuL then
    { s with cpuLimit := cpuL, maxCPULimit := cpuL, isDefaultCPU := false }
  else s

/-- Memory branch of the aggregation loop (Create.go lines 137-147). -/
def aggStepMem (s : AggState) (memL : Int) : AggState :=
  if memL = 0 ∧ s.isDefaultRam = true then
    { s with rlMemory := 1024 * 1024 }
  else if memL > s.rlMemory ∧ s.maxMemoryLimit < memL then
    { s with memoryLimit := memL, maxMemoryLimit := memL, isDefaultRam := false }
  else s

/-- One iteration of the aggregation part of the `SubmitHandler` loop
(Create.go lines 115-150): the CPU branch, the memory branch, and the
trailing copy-back `resourceLimits.CPU = cpuLimit`;
`resourceLimits.Memory = memoryLimit` executed on every iteration. -/
def aggStep (s : AggState) (container : Container) : AggState :=
  let s2 := aggStepMem (aggStepCPU s (cpuLimitFromContainer container)) container.mem
  { s2 with rlCPU := s2.cpuLimit, rlMemory := s2.memoryLimit }

/-- Initial aggregation state of `SubmitHandler` (Create.go lines 104-113). -/
def aggInit : AggState :=
  { isDefaultCPU := true, isDefaultRam := true, maxCPULimit := 0,
    maxMemoryLimit := 0, cpuLimit := 0, memoryLimit := 0, rlCPU := 0,
    rlMemory := 0 }

/-- The aggregation loop over all containers of a pod, init containers first
(Create.go lines 98-99 and 115-150). -/
def aggregate (containers : List Container) : AggState :=
  containers.foldl aggStep aggInit

/-- Invariant of the aggregation state at loop boundaries: the copy-back
keeps `resourceLimits` equal to the running values, the bookkeeping variable
equals the running value, the running value is nonnegative, and each default
flag is set exactly while its running value is still zero. -/
def GoodAgg (s : AggState) : Prop :=
  s.rlCPU = s.cpuLimit ∧ s.maxCPULimit = s.cpuLimit ∧ 0 ≤ s.cpuLimit ∧
    (s.isDefaultCPU = true ↔ s.cpuLimit = 0) ∧
    s.rlMemory = s.memoryLimit ∧ s.maxMemoryLimit = s.memoryLimit ∧
    0 ≤ s.memoryLimit ∧ (s.isDefaultRam = true ↔ s.memoryLimit = 0)

theorem aggStepCPU_spec (s : AggState) (cpuL : Int)
    (hrl : s.rlCPU = s.cpuLimit) (hmax : s.maxCPULimit = s.cpuLimit)
    (hnn : 0 ≤ s.cpuLimit) (hflag : s.isDefaultCPU = true ↔ s.cpuLimit = 0) :
    (aggStepCPU s cpuL).cpuLimit = max s.cpuLimit cpuL ∧
    (aggStepCPU s cpuL).maxCPULimit = max s.cpuLimit cpuL ∧
    (aggStepCPU s cpuL).isDefaultCPU
        = (s.isDefaultCPU && decide (cpuL ≤ 0)) ∧
    (aggStepCPU s cpuL).isDefaultRam = s.isDefaultRam ∧
    (aggStepCPU s cpuL).maxMemoryLimit = s.maxMemoryLimit ∧
    (aggStepCPU s cpuL).memoryLimit = s.memoryLimit ∧
    (aggStepCPU s cpuL).rlMemory = s.rlMemory := by
  unfold aggStepCPU
  split_ifs with hA hB
  · obtain ⟨h0, hd⟩ := hA
    have hz : s.cpuLimit = 0 := hflag.mp hd
    subst h0
    refine ⟨?_, ?_, ?_, rfl, rfl, rfl, rfl⟩
    · show s.cpuLimit = max s.cpuLimit 0
      rw [hz]
      simp
    · show s.maxCPULimit = max s.cpuLimit 0
      rw [hz, hmax, hz]
      simp
    · show s.isDefaultCPU = (s.isDefaultCPU && decide ((0 : Int) ≤ 0))
      simp
  · obtain ⟨hgt, hlt⟩ := hB
    have hlt2 : s.cpuLimit < cpuL := by omega
    refine ⟨?_, ?_, ?_, rfl, rfl, rfl, rfl⟩
    · show cpuL = max s.cpuLimit cpuL
      exact (max_eq_right hlt2.le).symm
    · show cpuL = max s.cpuLimit cpuL
      exact (max_eq_right hlt2.le).symm
    · show false = (s.isDefaultCPU && decide (cpuL ≤ 0))
      have : ¬ cpuL ≤ 0 := by omega
      simp [this]
  · push_neg at hA hB
    rw [hrl, hmax] at hB
    have hle : cpuL ≤ s.cpuLimit := by
      by_contra hgt
      push_neg at hgt
      have := hB hgt
      omega
    refine ⟨?_, ?_, ?_, rfl, rfl, rfl, rfl⟩
    · exact (max_eq_left hle).symm
    · rw [hmax]
      exact (max_eq_left hle).symm
    · by_cases hd : s.isDefaultCPU = true
      · have hz : s.cpuLimit = 0 := hflag.mp hd
        have hc0 : cpuL ≤ 0 := by omega
        simp [hd, hc0]
      · have hd' : s.isDefaultCPU = false := by
          simp only [Bool.not_eq_true] at hd
          exact hd
        simp [hd']

theorem aggStepMem_spec (s : AggState) (memL : Int)
    (hrl : s.rlMemory = s.memoryLimit) (hmax : s.maxMemoryLimit = s.memoryLimit)
    (hnn : 0 ≤ s.memoryLimit) (hflag : s.isDefaultRam = true ↔ s.memoryLimit = 0) :
    (aggStepMem s memL).memoryLimit = max s.memoryLimit memL ∧
    (aggStepMem s memL).maxMemoryLimit = max s.memoryLimit memL ∧
    (aggStepMem s memL).isDefaultRam
        = (s.isDefaultRam && decide (memL ≤ 0)) ∧
    (aggStepMem s memL).isDefaultCPU = s.isDefaultCPU ∧
    (aggStepMem s memL).maxCPULimit = s.maxCPULimit ∧
    (aggStepMem s memL).cpuLimit = s.cpuLimit ∧
    (aggStepMem s memL).rlCPU = s.rlCPU := by
  unfold aggStepMem
  split_ifs with hA hB
  · obtain ⟨h0, hd⟩ := hA
    have hz : s.memoryLimit = 0 := hflag.mp hd
    subst h0
    refine ⟨?_, ?_, ?_, rfl, rfl, rfl, rfl⟩
    · show s.memoryLimit = max s.memoryLimit 0
      rw [hz]
      simp
    · show s.maxMemoryLimit = max s.memoryLimit 0
      rw [hz, hmax, hz]
      simp
    · show s.isDefaultRam = (s.isDefaultRam && decide ((0 : Int) ≤ 0))
      simp
  · obtain ⟨hgt, hlt⟩ := hB
    have hlt2 : s.memoryLimit < memL := by omega
    refine ⟨?_, ?_, ?_, rfl, rfl, rfl, rfl⟩
    · show memL = max s.memoryLimit memL
      exact (max_eq_right hlt2.le).symm
    · show memL = max s.memoryLimit memL
      exact (max_eq_right hlt2.le).symm
    · show false = (s.isDefaultRam && decide (memL ≤ 0))
      have : ¬ memL ≤ 0 := by omega
      simp [this]
  · push_neg at hA hB
    rw [hrl, hmax] at hB
    have hle : memL ≤ s.memoryLimit := by
      by_contra hgt
      push_neg at hgt
      have := hB hgt
      omega
    refine ⟨?_, ?_, ?_, rfl, rfl, rfl, rfl⟩
    · exact (max_eq_left hle).symm
    · rw [hmax]
      exact (max_eq_left hle).symm
    · by_cases hd : s.isDefaultRam = true
      · have hz : s.memoryLimit = 0 := hflag.mp hd
        have hc0 : memL ≤ 0 := by omega
        simp [hd, hc0]
      · have hd' : s.isDefaultRam = false := by
          simp only [Bool.not_eq_true] at hd
          exact hd
        simp [hd']

theorem aggStep_spec (s : AggState) (c : Container) (h : GoodAgg s) :
    GoodAgg (aggStep s c) ∧
    (aggStep s c).cpuLimit = max s.cpuLimit (cpuLimitFromContainer c) ∧
    (aggStep s c).memoryLimit = max s.memoryLimit c.mem ∧
    (aggStep s c).isDefaultCPU
        = (s.isDefaultCPU && decide (cpuLimitFromContainer c ≤ 0)) ∧
    (aggStep s c).isDefaultRam = (s.isDefaultRam && decide (c.mem ≤ 0)) := by
  obtain ⟨h1, h2, h3, h4, h5, h6, h7, h8⟩ := h
  obtain ⟨c1, c2, c3, c4, c5, c6, c7⟩ :=
    aggStepCPU_spec s (cpuLimitFromContainer c) h1 h2 h3 h4
  obtain ⟨m1, m2, m3, m4, m5, m6, m7⟩ :=
    aggStepMem_spec (aggStepCPU s (cpuLimitFromContainer c)) c.mem
      (by rw [c7, c6, h5]) (by rw [c5, c6, h6]) (by rw [c6]; exact h7)
      (by rw [c4, c6]; exact h8)
  have Hcpu : (aggStep s c).cpuLimit = max s.cpuLimit (cpuLimitFromContainer c) := by
    show (aggStepMem (aggStepCPU s (cpuLimitFromContainer c)) c.mem).cpuLimit = _
    rw [m6, c1]
  have Hmem : (aggStep s c).memoryLimit = max s.memoryLimit c.mem := by
    show (aggStepMem (aggStepCPU s (cpuLimitFromContainer c)) c.mem).memoryLimit = _
    rw [m1, c6]
  have Hfc : (aggStep s c).isDefaultCPU
      = (s.isDefaultCPU && decide (cpuLimitFromContainer c ≤ 0)) := by
    show (aggStepMem (aggStepCPU s (cpuLimitFromContainer c)) c.mem).isDefaultCPU = _
    rw [m4, c3]
  have Hfr : (aggStep s c).isDefaultRam = (s.isDefaultRam && decide (c.mem ≤ 0)) := by
    show (aggStepMem (aggStepCPU s (cpuLimitFromContainer c)) c.mem).isDefaultRam = _
    rw [m3, c4]
  have HmaxC : (aggStep s c).maxCPULimit = max s.cpuLimit (cpuLimitFromContainer c) := by
    show (aggStepMem (aggStepCPU s (cpuLimitFromContainer c)) c.mem).maxCPULimit = _
    rw [m5, c2]
  have HmaxM : (aggStep s c).maxMemoryLimit = max s.memoryLimit c.mem := by
    show (aggStepMem (aggStepCPU s (cpuLimitFromContainer c)) c.mem).maxMemoryLimit = _
    rw [m2, c6]
  have Hrl : (aggStep s c).rlCPU = (aggStep s c).cpuLimit := rfl
  have HrlM : (aggStep s c).rlMemory = (aggStep s c).memoryLimit := rfl
  refine ⟨⟨Hrl, HmaxC.trans Hcpu.symm, ?_, ?_, HrlM, HmaxM.trans Hmem.symm, ?_, ?_⟩,
    Hcpu, Hmem, Hfc, Hfr⟩
  · rw [Hcpu]
    exact le_max_of_le_left h3
  · rw [Hfc, Hcpu]
    constructor
    · intro hb
      rw [Bool.and_eq_true, decide_eq_true_eq] at hb
      have hz : s.cpuLimit = 0 := h4.mp hb.1
      rw [hz]
      exact max_eq_left hb.2
    · intro hz
      have ha : s.cpuLimit ≤ 0 := (le_max_left s.cpuLimit _).trans hz.le
      have hcz : s.cpuLimit = 0 := le_antisymm ha h3
      have hcl : cpuLimitFromContainer c ≤ 0 :=
        (le_max_right s.cpuLimit _).trans hz.le
      simp [h4.mpr hcz, hcl]
  · rw [Hmem]
    exact le_max_of_le_left h7
  · rw [Hfr, Hmem]
    constructor
    · intro hb
      rw [Bool.and_eq_true, decide_eq_true_eq] at hb
      have hz : s.memoryLimit = 0 := h8.mp hb.1
      rw [hz]
      exact max_eq_left hb.2
    · intro hz
      have ha : s.memoryLimit ≤ 0 := (le_max_left s.memoryLimit _).trans hz.le
      have hcz : s.memoryLimit = 0 := le_antisymm ha h7
      have hcl : c.mem ≤ 0 := (le_max_right s.memoryLimit _).trans hz.le
      simp [h8.mpr hcz, hcl]

theorem aggregate_loop (l : List Container) : ∀ s : AggState, GoodAgg s →
    GoodAgg (l.foldl aggStep s) ∧
    (l.foldl aggStep s).cpuLimit
        = l.foldl (fun a c => max a (cpuLimitFromContainer c)) s.cpuLimit ∧
    (l.foldl aggStep s).memoryLimit
        = l.foldl (fun a c => max a c.mem) s.memoryLimit ∧
    (l.foldl aggStep s).isDefaultCPU
        = (s.isDefaultCPU && l.all fun c => decide (cpuLimitFromContainer c ≤ 0)) ∧
    (l.foldl aggStep s).isDefaultRam
        = (s.isDefaultRam && l.all fun c => decide (c.mem ≤ 0)) := by
  induction l with
  | nil => intro s hs; simpa using hs
  | cons c rest ih =>
    intro s hs
    obtain ⟨hg, hcl, hml, hfc, hfr⟩ := aggStep_spec s c hs
    obtain ⟨ig, icl, iml, ifc, ifr⟩ := ih (aggStep s c) hg
    refine ⟨ig, ?_, ?_, ?_, ?_⟩
    · rw [List.foldl_cons, List.foldl_cons, icl, hcl]
    · rw [List.foldl_cons, List.foldl_cons, iml, hml]
    · rw [List.foldl_cons, List.all_cons, ifc, hfc, Bool.and_assoc]
    · rw [List.foldl_cons, List.all_cons, ifr, hfr, Bool.and_assoc]

theorem goodAgg_init : GoodAgg aggInit := by
  refine ⟨rfl, rfl, le_refl _, ?_, rfl, rfl, le_refl _, ?_⟩ <;> simp [aggInit]

/-- Final-state characterisation of the aggregation loop: the job-wide
ceilings `resourceLimits.CPU` / `resourceLimits.Memory` equal the running
maxima of the per-container values over 0, and the default flags are set
exactly when no container contributed a positive value. -/
theorem aggregate_final (containers : List Container) :
    (aggregate containers).rlCPU
        = containers.foldl (fun a c => max a (cpuLimitFromContainer c)) 0 ∧
    ((aggregate containers).isDefaultCPU = true ↔
        ∀ c ∈ containers, cpuLimitFromContainer c ≤ 0) ∧
    (aggregate containers).rlMemory
        = containers.foldl (fun a c => max a c.mem) 0 ∧
    ((aggregate containers).isDefaultRam = true ↔
        ∀ c ∈ containers, c.mem ≤ 0) := by
  obtain ⟨⟨g1, g2, g3, g4, g5, g6, g7, g8⟩, hc, hm, hfc, hfr⟩ :=
    aggregate_loop containers aggInit goodAgg_init
  refine ⟨?_, ?_, ?_, ?_⟩
  · rw [show (aggregate containers).rlCPU = (aggregate containers).cpuLimit from g1]
    exact hc
  · rw [show (aggregate containers).isDefaultCPU
        = (aggInit.isDefaultCPU && containers.all fun c =>
            decide (cpuLimitFromContainer c ≤ 0)) from hfc]
    simp [aggInit, List.all_eq_true]
  · rw [show (aggregate containers).rlMemory
        = (aggregate containers).memoryLimit from g5]
    exact hm
  · rw [show (aggregate containers).isDefaultRam
        = (aggInit.isDefaultRam && containers.all fun c =>
            decide (c.mem ≤ 0)) from hfr]
    simp [aggInit, List.all_eq_true]

theorem foldl_max_nonpos (f : Container → Int) (l : List Container) :
    ∀ a : Int, 0 ≤ a → (∀ d ∈ l, f d ≤ 0) →
      l.foldl (fun x c => max x (f c)) a = a := by
  induction l with
  | nil => intro a _ _; rfl
  | cons c rest ih =>
    intro a ha h
    rw [List.foldl_cons]
    have hc : f c ≤ 0 := h c (by simp)
    rw [max_eq_left (hc.trans ha)]
    exact ih a ha fun d hd => h d (by simp [hd])

theorem foldl_max_perm (f : Container → Int) {l1 l2 : List Container}
    (h : l1.Perm l2) :
    ∀ a : Int, l1.foldl (fun x c => max x (f c)) a
      = l2.foldl (fun x c => max x (f c)) a := by
  induction h with
  | nil => intro a; rfl
  | cons x h ih =>
    intro a
    rw [List.foldl_cons, List.foldl_cons]
    exact ih _
  | swap x y l =>
    intro a
    rw [List.foldl_cons, List.foldl_cons, List.foldl_cons, List.foldl_cons,
      sup_right_comm]
  | trans h1 h2 ih1 ih2 => intro a; exact (ih1 a).trans (ih2 a)

/-- Claim C1, amended: after the aggregation loop has processed all containers
(init-containers first, then regular containers), the job-wide CPU ceiling
`resourceLimits.CPU` equals the running maximum of the ceil-rounded CPU
limits over the initial value 0 — hence the maximum among containers that
declared a positive CPU limit, and 0 (not 1) when none did — with the CPU
default-used flag true exactly in the no-positive-declaration case; the
memory ceiling likewise equals the maximum declared memory limit, and 0 (not
1,048,576 bytes) when no container declared one, with the memory flag true
exactly in that case. The in-loop default assignments
`resourceLimits.CPU = 1` and `resourceLimits.Memory = 1024*1024` are dead:
the copy-back at the end of every iteration overwrites them with the running
values. -/
theorem claim_C1 (containers : List Container) :
    (aggregate containers).rlCPU
        = containers.foldl (fun a c => max a (cpuLimitFromContainer c)) 0 ∧
    ((aggregate containers).isDefaultCPU = true ↔
        ∀ c ∈ containers, cpuLimitFromContainer c ≤ 0) ∧
    (aggregate containers).rlMemory
        = containers.foldl (fun a c => max a c.mem) 0 ∧
    ((aggregate containers).isDefaultRam = true ↔
        ∀ c ∈ containers, c.mem ≤ 0) :=
  aggregate_final containers

/-- Claim C1 counterexample: a pod whose single container declares neither a
CPU nor a memory limit ends the aggregation loop with
`resourceLimits.CPU = 0` and `resourceLimits.Memory = 0` — not the claimed 1
and 1,048,576 — while both default-used flags are true. -/
theorem claim_C1_counterexample :
    (aggregate [{ name := "a", cpu := 0, mem := 0 }]).isDefaultCPU = true ∧
    (aggregate [{ name := "a", cpu := 0, mem := 0 }]).isDefaultRam = true ∧
    (aggregate [{ name := "a", cpu := 0, mem := 0 }]).rlCPU = 0 ∧
    (aggregate [{ name := "a", cpu := 0, mem := 0 }]).rlCPU ≠ 1 ∧
    (aggregate [{ name := "a", cpu := 0, mem := 0 }]).rlMemory = 0 ∧
    (aggregate [{ name := "a", cpu := 0, mem := 0 }]).rlMemory ≠ 1048576 := by
  decide

/-- Claim C1 witness: the amended characterisation evaluated on a concrete
one-container pod. -/
theorem claim_C1_witness :
    (aggregate [{ name := "a", cpu := 2, mem := 5 }]).rlCPU
      = ([{ name := "a", cpu := 2, mem := 5 }] : List Container).foldl
          (fun a c => max a (cpuLimitFromContainer c)) 0 :=
  (claim_C1 _).1

/-- Claim C5, amended: when every container processed so far declared no
positive limit, a later container declaring exactly the default floor
(ceil-rounded CPU limit 1, memory limit 1,048,576 bytes) clears the
default-used flags rather than preserving them: the comparison baseline is
the copied-back running maximum 0, not the floor written by the dead in-loop
default assignment, so a tie with the notional floor counts as an explicit
declaration; the final ceilings become 1 and 1,048,576. -/
theorem claim_C5 (pre : List Container) (c : Container)
    (hpre : ∀ d ∈ pre, cpuLimitFromContainer d ≤ 0 ∧ d.mem ≤ 0)
    (hcpu : cpuLimitFromContainer c = 1) (hmem : c.mem = 1048576) :
    (aggregate (pre ++ [c])).isDefaultCPU = false ∧
    (aggregate (pre ++ [c])).isDefaultRam = false ∧
    (aggregate (pre ++ [c])).rlCPU = 1 ∧
    (aggregate (pre ++ [c])).rlMemory = 1048576 := by
  obtain ⟨hc, hfc, hm, hfr⟩ := aggregate_final (pre ++ [c])
  refine ⟨?_, ?_, ?_, ?_⟩
  · cases hb : (aggregate (pre ++ [c])).isDefaultCPU
    · rfl
    · exfalso
      have h1 := hfc.mp hb
      have h2 := h1 c (by simp)
      omega
  · cases hb : (aggregate (pre ++ [c])).isDefaultRam
    · rfl
    · exfalso
      have h1 := hfr.mp hb
      have h2 := h1 c (by simp)
      omega
  · rw [hc, List.foldl_append,
      foldl_max_nonpos _ pre 0 le_rfl (fun d hd => (hpre d hd).1),
      List.foldl_cons, List.foldl_nil, hcpu]
    decide
  · rw [hm, List.foldl_append,
      foldl_max_nonpos _ pre 0 le_rfl (fun d hd => (hpre d hd).2),
      List.foldl_cons, List.foldl_nil, hmem]
    decide

/-- Claim C5 counterexample: after one container with no declared limits, a
second container declaring exactly 1 CPU unit and 1,048,576 bytes clears both
default-used flags, where the claim states they must remain true. -/
theorem claim_C5_counterexample :
    (aggregate [{ name := "a", cpu := 0, mem := 0 },
                { name := "b", cpu := 1, mem := 1048576 }]).isDefaultCPU = false ∧
    (aggregate [{ name := "a", cpu := 0, mem := 0 },
                { name := "b", cpu := 1, mem := 1048576 }]).isDefaultRam = false := by
  decide

/-- Claim C5 witness: the amended statement applied at a concrete
two-container pod. -/
theorem claim_C5_witness :
    (aggregate ([{ name := "a", cpu := 0, mem := 0 }] ++
        [{ name := "b", cpu := 1, mem := 1048576 }])).isDefaultCPU = false ∧
    (aggregate ([{ name := "a", cpu := 0, mem := 0 }] ++
        [{ name := "b", cpu := 1, mem := 1048576 }])).rlCPU = 1 := by
  have h := claim_C5 [{ name := "a", cpu := 0, mem := 0 }]
    { name := "b", cpu := 1, mem := 1048576 } (by decide) (by decide) (by decide)
  exact ⟨h.1, h.2.2.1⟩

/-- Claim C6: permuting the order of the container list never changes the
final job-wide CPU ceiling or memory ceiling computed by the aggregation
loop. -/
theorem claim_C6 (l1 l2 : List Container) (h : l1.Perm l2) :
    (aggregate l1).rlCPU = (aggregate l2).rlCPU ∧
    (aggregate l1).rlMemory = (aggregate l2).rlMemory := by
  obtain ⟨hc1, _, hm1, _⟩ := aggregate_final l1
  obtain ⟨hc2, _, hm2, _⟩ := aggregate_final l2
  constructor
  · rw [hc1, hc2]
    exact foldl_max_perm (fun c => cpuLimitFromContainer c) h 0
  · rw [hm1, hm2]
    exact foldl_max_perm (fun c => c.mem) h 0

/-- Claim C6 witness: order-invariance of the final ceilings on a concrete
two-container pod. -/
theorem claim_C6_witness :
    (aggregate [{ name := "a", cpu := 1, mem := 2 },
                { name := "b", cpu := 3, mem := 4 }]).rlCPU
      = (aggregate [{ name := "b", cpu := 3, mem := 4 },
                    { name := "a", cpu := 1, mem := 2 }]).rlCPU :=
  (claim_C6 _ _ (List.Perm.swap { name := "b", cpu := 3, mem := 4 }
    { name := "a", cpu := 1, mem := 2 } [])).1

/-- Largest signed 64-bit integer; the bound `strconv.ParseInt(_, 10, 64)`
enforces. -/
def int64Max : Int := 9223372036854775807

/-- Wrap-around of Go `int64` multiplication (two's complement). -/
def wrap64 (x : Int) : Int := (x + 2 ^ 63) % 2 ^ 64 - 2 ^ 63

/-- Numeric value of a decimal digit string: the value
`strconv.ParseInt(m[1], 10, 64)` computes when it does not overflow. -/
def digitsToNat (ds : List Char) : Nat :=
  ds.foldl (fun a c => 10 * a + (c.toNat - 48)) 0

/-- Result of the Go regular expression match
`regexp.MustCompile("^(\\d+)([KMG]?)$").FindStringSubmatch(val)`
(Create.go lines 38-39): the two capture groups (digit field, optional unit)
when the token matches, `none` otherwise. The expression is anchored, `\d+`
is a maximal nonempty run of ASCII digits, and the optional group is a
single K, M or G. -/
def findStringSubmatch (s : List Char) : Option (List Char × List Char) :=
  let ds := s.takeWhile Char.isDigit
  let rest := s.dropWhile Char.isDigit
  if ds = [] then none
  else
    match rest with
    | [] => some (ds, [])
    | [c] => if c = 'K' ∨ c = 'M' ∨ c = 'G' then some (ds, [c]) else none
    | _ => none

/-- Go `strconv.ParseInt(m[1], 10, 64)` on a digit-only field (Create.go
line 43): the decimal value if it fits a signed 64-bit integer, an error
otherwise. -/
def strconvParseInt (ds : List Char) : Except String Int :=
  if (digitsToNat ds : Int) > int64Max then .error "value out of range"
  else .ok (digitsToNat ds)

/-- Embedding of `parseMem` (Create.go lines 37-57): match the token against
the grammar, parse the digit field, and scale by the unit using the
left-associated, 64-bit-wrapping multiplications of Go. -/
def parseMem (val : List Char) : Except String Int :=
  match findStringSubmatch val with
  | none => .error ("invalid memory format: " ++ String.mk val)
  | some (m1, m2) =>
    match strconvParseInt m1 with
    | .error e => .error e
    | .ok n =>
      match m2 with
      | ['G'] => .ok (wrap64 (wrap64 (wrap64 (n * 1024) * 1024) * 1024))
      | ['M'] => .ok (wrap64 (wrap64 (n * 1024) * 1024))
      | ['K'] => .ok (wrap64 (n * 1024))
      | _ => .ok n

/-- Grammar of claim C8, written from the spec's words (a token is
`<digits><optional unit>` with unit K, M or G), for comparison with the
source-derived `parseMem`. -/
def specMemGrammar (ds u : List Char) : Prop :=
  ds ≠ [] ∧ (∀ c ∈ ds, c.isDigit = true) ∧
    (u = [] ∨ u = ['K'] ∨ u = ['M'] ∨ u = ['G'])

/-- Byte multiplier of a unit suffix, from the spec's words: powers of 1024
for K, M, G, and 1 for no suffix. -/
def specUnitVal (u : List Char) : Int :=
  if u = ['K'] then 1024
  else if u = ['M'] then 1024 * 1024
  else if u = ['G'] then 1024 * 1024 * 1024
  else 1

theorem takeWhile_append_of (p : Char → Bool) (l r : List Char)
    (hl : ∀ c ∈ l, p c = true)
    (hr : ∀ c t, r = c :: t → p c = false) :
    (l ++ r).takeWhile p = l ∧ (l ++ r).dropWhile p = r := by
  induction l with
  | nil =>
    cases r with
    | nil => exact ⟨rfl, rfl⟩
    | cons c t =>
      have hc : p c = false := hr c t rfl
      simp only [List.nil_append]
      constructor
      · rw [List.takeWhile_cons_of_neg (by simp [hc])]
      · rw [List.dropWhile_cons_of_neg (by simp [hc])]
  | cons a l ih =>
    have ha : p a = true := hl a (by simp)
    obtain ⟨ht, hd⟩ := ih fun c hc => hl c (by simp [hc])
    simp only [List.cons_append]
    constructor
    · rw [List.takeWhile_cons_of_pos ha, ht]
    · rw [List.dropWhile_cons_of_pos ha, hd]

theorem findStringSubmatch_of_grammar (ds u : List Char)
    (h : specMemGrammar ds u) :
    findStringSubmatch (ds ++ u) = some (ds, u) := by
  obtain ⟨hne, hdig, hu⟩ := h
  have hr : ∀ c t, u = c :: t → Char.isDigit c = false := by
    intro c t hct
    rcases hu with rfl | rfl | rfl | rfl
    · cases hct
    · cases hct; decide
    · cases hct; decide
    · cases hct; decide
  obtain ⟨ht, hd⟩ := takeWhile_append_of Char.isDigit ds u hdig hr
  simp only [findStringSubmatch, ht, hd]
  rw [if_neg hne]
  rcases hu with rfl | rfl | rfl | rfl <;> simp

theorem findStringSubmatch_grammar (s m1 m2 : List Char)
    (h : findStringSubmatch s = some (m1, m2)) :
    s = m1 ++ m2 ∧ specMemGrammar m1 m2 := by
  have hsplit : s.takeWhile Char.isDigit ++ s.dropWhile Char.isDigit = s :=
    List.takeWhile_append_dropWhile Char.isDigit s
  have hdig : ∀ c ∈ s.takeWhile Char.isDigit, Char.isDigit c = true :=
    fun c hc => List.mem_takeWhile_imp hc
  simp only [findStringSubmatch] at h
  split_ifs at h with h0
  revert h
  rcases hr : s.dropWhile Char.isDigit with _ | ⟨c, _ | ⟨c2, t2⟩⟩
  · intro h
    rw [Option.some_inj] at h
    injection h with h1 h2
    subst h1
    subst h2
    refine ⟨?_, h0, hdig, Or.inl rfl⟩
    have hres : s = s.takeWhile Char.isDigit ++ s.dropWhile Char.isDigit :=
      hsplit.symm
    rw [hr] at hres
    exact hres
  · intro h
    dsimp only at h
    split_ifs at h with hc
    · rw [Option.some_inj] at h
      injection h with h1 h2
      subst h1
      subst h2
      refine ⟨?_, h0, hdig, ?_⟩
      · have hres : s = s.takeWhile Char.isDigit ++ s.dropWhile Char.isDigit :=
          hsplit.symm
        rw [hr] at hres
        exact hres
      · rcases hc with rfl | rfl | rfl
        · exact Or.inr (Or.inl rfl)
        · exact Or.inr (Or.inr (Or.inl rfl))
        · exact Or.inr (Or.inr (Or.inr rfl))
  · intro h
    simp at h

theorem wrap64_eq_of_bounds (x : Int) (h1 : 0 ≤ x) (h2 : x ≤ int64Max) :
    wrap64 x = x := by
  unfold wrap64
  unfold int64Max at h2
  omega

theorem parseMem_ok (ds u : List Char) (h : specMemGrammar ds u)
    (hrep : (digitsToNat ds : Int) * specUnitVal u ≤ int64Max) :
    parseMem (ds ++ u) = .ok ((digitsToNat ds : Int) * specUnitVal u) := by
  have hfind := findStringSubmatch_of_grammar ds u h
  have hn : (0 : Int) ≤ (digitsToNat ds : Int) := Int.natCast_nonneg _
  obtain ⟨hne, hdig, hu⟩ := h
  rcases hu with rfl | rfl | rfl | rfl
  · have hu1 : specUnitVal [] = 1 := by decide
    rw [hu1, mul_one] at hrep ⊢
    have hc : ¬ ((digitsToNat ds : Int) > int64Max) := by omega
    have hsp : strconvParseInt ds = .ok (digitsToNat ds) := by
      unfold strconvParseInt
      rw [if_neg hc]
    simp only [parseMem, hfind, hsp]
  · have hu1 : specUnitVal ['K'] = 1024 := by decide
    rw [hu1] at hrep ⊢
    have hc : ¬ ((digitsToNat ds : Int) > int64Max) := by omega
    have hsp : strconvParseInt ds = .ok (digitsToNat ds) := by
      unfold strconvParseInt
      rw [if_neg hc]
    simp only [parseMem, hfind, hsp]
    rw [wrap64_eq_of_bounds _ (by omega) hrep]
  · have hu1 : specUnitVal ['M'] = 1024 * 1024 := by decide
    rw [hu1] at hrep ⊢
    have h2 : (digitsToNat ds : Int) * 1024 ≤ int64Max := by
      unfold int64Max at *
      omega
    have h3 : (digitsToNat ds : Int) * 1024 * 1024 ≤ int64Max := by
      rw [mul_assoc]
      exact hrep
    have hc : ¬ ((digitsToNat ds : Int) > int64Max) := by
      unfold int64Max at *
      omega
    have hsp : strconvParseInt ds = .ok (digitsToNat ds) := by
      unfold strconvParseInt
      rw [if_neg hc]
    simp only [parseMem, hfind, hsp]
    rw [wrap64_eq_of_bounds _ (by omega) h2,
      wrap64_eq_of_bounds _ (by omega) h3]
    exact congrArg Except.ok (by ring)
  · have hu1 : specUnitVal ['G'] = 1024 * 1024 * 1024 := by decide
    rw [hu1] at hrep ⊢
    have h4 : (digitsToNat ds : Int) * 1024 * 1024 * 1024 ≤ int64Max := by
      rw [mul_assoc, mul_assoc, ← mul_assoc (1024 : Int)]
      exact hrep
    have h2 : (digitsToNat ds : Int) * 1024 ≤ int64Max := by
      unfold int64Max at *
      omega
    have h3 : (digitsToNat ds : Int) * 1024 * 1024 ≤ int64Max := by
      unfold int64Max at *
      omega
    have hc : ¬ ((digitsToNat ds : Int) > int64Max) := by
      unfold int64Max at *
      omega
    have hsp : strconvParseInt ds = .ok (digitsToNat ds) := by
      unfold strconvParseInt
      rw [if_neg hc]
    simp only [parseMem, hfind, hsp]
    rw [wrap64_eq_of_bounds _ (by omega) h2,
      wrap64_eq_of_bounds _ (by omega) h3,
      wrap64_eq_of_bounds _ (by omega) h4]
    exact congrArg Except.ok (by ring)

/-- Claim C8: for every token matching `<digits><optional unit>` with unit
in K, M, G whose value digits × 1024^k is representable in a signed 64-bit
integer, `parseMem` returns exactly that byte count; for every token outside
the grammar it returns an error. -/
theorem claim_C8 (s : List Char) :
    (∀ ds u, s = ds ++ u → specMemGrammar ds u →
        (digitsToNat ds : Int) * specUnitVal u ≤ int64Max →
        parseMem s = .ok ((digitsToNat ds : Int) * specUnitVal u)) ∧
    ((∀ ds u, s = ds ++ u → ¬ specMemGrammar ds u) →
        ∃ e, parseMem s = .error e) := by
  constructor
  · intro ds u hs hg hrep
    subst hs
    exact parseMem_ok ds u hg hrep
  · intro hno
    rcases hr : findStringSubmatch s with _ | ⟨m1, m2⟩
    · exact ⟨_, by rw [parseMem, hr]⟩
    · obtain ⟨hs, hg⟩ := findStringSubmatch_grammar s m1 m2 hr
      exact absurd hg (hno m1 m2 hs)

/-- Claim C8 witness: `parseMem` evaluated through the claim theorem on the
concrete tokens `2K` (inside the grammar) and `x1` (outside it). -/
theorem claim_C8_witness :
    parseMem ['2', 'K'] = .ok ((digitsToNat ['2'] : Int) * specUnitVal ['K']) ∧
    ∃ e, parseMem ['x', '1'] = .error e :=
  ⟨(claim_C8 ['2', 'K']).1 ['2'] ['K'] rfl
      ⟨by decide, by decide, by decide⟩ (by decide),
   (claim_C8 ['x', '1']).2 (by
      intro ds u heq hg
      obtain ⟨hne, hdig, _⟩ := hg
      cases ds with
      | nil => exact hne rfl
      | cons d dt =>
        injection heq with h1 h2
        have hd : Char.isDigit d = true := hdig d (by simp)
        rw [← h1] at hd
        exact absurd hd (by decide))⟩

/-- Go `strings.ReplaceAll(mounts, ":ro", "")` (Create.go line 173): remove
the leftmost occurrence of `:ro`, continue scanning after the removal point,
and never rescan produced text. -/
def stripRO : List Char → List Char
  | [] => []
  | [c1] => [c1]
  | [c1, c2] => [c1, c2]
  | c1 :: c2 :: c3 :: rest =>
    if c1 = ':' ∧ c2 = 'r' ∧ c3 = 'o' then stripRO rest
    else c1 :: stripRO (c2 :: c3 :: rest)

/-- Containment of the read-only marker `:ro` as a substring. -/
def containsRO : List Char → Bool
  | [] => false
  | [_] => false
  | [_, _] => false
  | c1 :: c2 :: c3 :: rest =>
    if c1 = ':' ∧ c2 = 'r' ∧ c3 = 'o' then true
    else containsRO (c2 :: c3 :: rest)

/-- String wrapper of `stripRO`. -/
def stripROStr (s : String) : String := ⟨stripRO s.data⟩

/-- Per-container command assembly of `SubmitHandler` (Create.go lines
164-177): the runtime-invocation fragment `commstr1`, then the environment
fragment; then, for `singularity`, the mount fragment and the image, and for
`enroot`, the mount fragment with `:ro` markers replaced away and the
generated container name `container.Name + string(data.Pod.UID)`. -/
def assembleCommand (containerRuntime : String) (commstr1 envs : List String)
    (mounts image containerName : String) : List String :=
  let runtime_command := commstr1 ++ envs
  if containerRuntime = "singularity" then runtime_command ++ [mounts, image]
  else if containerRuntime = "enroot" then
    runtime_command ++ [stripROStr mounts, containerName]
  else runtime_command

theorem stripRO_of_not_contains (l : List Char) (h : containsRO l = false) :
    stripRO l = l := by
  match l with
  | [] => rfl
  | [c1] => rfl
  | [c1, c2] => rfl
  | c1 :: c2 :: c3 :: rest =>
    unfold containsRO at h
    split_ifs at h with hc
    unfold stripRO
    rw [if_neg hc, stripRO_of_not_contains (c2 :: c3 :: rest) h]

/-- Claim C9, amended: for the enroot variant the assembled command appends
the raw mount fragment after a single left-to-right removal pass of `:ro`
(a fragment containing no `:ro` passes through unchanged), followed by the
generated container name; because a removal can juxtapose surrounding
characters into a new `:ro` occurrence, the assembled command is NOT
guaranteed to be free of read-only markers for every raw fragment the
mount-preparation collaborator could supply. -/
theorem claim_C9 (commstr1 envs : List String)
    (mounts image containerName : String) :
    assembleCommand "enroot" commstr1 envs mounts image containerName
        = commstr1 ++ envs ++ [stripROStr mounts, containerName] ∧
    (containsRO mounts.data = false → stripROStr mounts = mounts) := by
  constructor
  · unfold assembleCommand
    rw [if_neg (by decide), if_pos rfl]
  · intro hm
    unfold stripROStr
    rw [stripRO_of_not_contains _ hm]

/-- Claim C9 counterexample: the raw mount fragment `:r:roo` contains the
read-only marker `:ro`, yet after the enroot replacement the fragment
appended to the assembled command is exactly `:ro` — the assembled command
still contains a read-only marker. -/
theorem claim_C9_counterexample :
    containsRO (":r:roo".data) = true ∧
    stripROStr ":r:roo" = ":ro" ∧
    (assembleCommand "enroot" [] [] ":r:roo" "img" "cn").any
        (fun t => containsRO t.data) = true := by
  decide

/-- Claim C9 witness: the amended statement applied at concrete inputs. -/
theorem claim_C9_witness :
    assembleCommand "enroot" ["run"] [] "a:ro" "img" "cn"
        = ["run"] ++ [] ++ [stripROStr "a:ro", "cn"] ∧
    stripROStr "abc" = "abc" :=
  ⟨(claim_C9 ["run"] [] "a:ro" "img" "cn").1,
   (claim_C9 [] [] "abc" "i" "c").2 (by decide)⟩

/-- Pod fields read by `SubmitHandler`: `data.Pod.UID`, `data.Pod.Namespace`,
`data.Pod.Spec.InitContainers` and `data.Pod.Spec.Containers`. -/
structure Pod where
  uid : String
  podNamespace : String
  initContainers : List Container
  containers : List Container
deriving DecidableEq, Repr

/-- Configuration fields of `SlurmConfig` (types.go) consumed by the
submission path. -/
structure SlurmConfig where
  ContainerRuntime : String
  DataRootFolder : String
deriving DecidableEq, Repr

/-- Runtime variants of types.go (`SingularityRuntime`, `EnrootRuntime`). -/
inductive Runtime where
  | SingularityRuntime
  | EnrootRuntime
deriving DecidableEq, Repr

/-- Embedding of `createRuntime` (Create.go lines 26-35): the switch over
the configured runtime name. -/
def createRuntime (containerRuntime : String) : Except String Runtime :=
  if containerRuntime = "singularity" then .ok .SingularityRuntime
  else if containerRuntime = "enroot" then .ok .EnrootRuntime
  else .error "invalid runtime"

/-- Observable actions of one `SubmitHandler` run, in program order. -/
inductive Ev where
  | evCreateRuntime
  | evPrepareMounts (containerName : String)
  | evPrepareEnvs (containerName : String)
  | evPrepareImage (containerName : String)
  | evPrepareCommand (containerName : String)
  | evRemoveAll (path : String)
  | evProduceScript
  | evSubmit
  | evHandleJid
  | evDeleteContainer (podUID : String)
deriving DecidableEq, Repr

/-- Per-container collaborator work (mount, env, image, command
preparation). -/
def isContainerEv : Ev → Bool
  | .evPrepareMounts _ | .evPrepareEnvs _ | .evPrepareImage _
  | .evPrepareCommand _ => true
  | _ => false

/-- Response written to the caller: `handleError` writes an error status
with a generic diagnostic (modelled from the spec: the caller receives an
opaque internal-error indication), the success path writes status 200 and
the serialized pod/job identifier pair. -/
inductive Resp where
  | errResp (code : Nat)
  | okResp (code : Nat) (body : String)
deriving DecidableEq, Repr

/-- The shared pod-to-job tracking store `h.JIDs`, modelled as an
association list from pod UID to job id. -/
abbrev JIDStore := List (String × String)

/-- Lookup in the tracking store. -/
def storeLookup (store : JIDStore) (podUID : String) : Option String :=
  match store with
  | [] => none
  | p :: rest => if p.1 = podUID then some p.2 else storeLookup rest podUID

/-- Collaborators of `SubmitHandler` that live outside Create.go, modelled
from the spec as oracles at their interface boundary: body reading and JSON
decoding/encoding, mount/env/image preparation, the per-runtime
`prepareCommand`, script generation, batch submission, and job-id
extraction. -/
structure Collab where
  readBody : Except String String
  unmarshal : String → Except String Pod
  prepareMounts : Container → Except String String
  prepareEnvs : Container → List String
  prepareImage : Container → String
  prepareCommand : Container → List String
  produceSLURMScript :
    List (List String) → Int → Int → Bool → Bool → Except String String
  slurmBatchSubmit : String → Except String String
  extractJid : String → Except String String
  marshalJid : String → String → Except String String

/-- Modelled from the spec: `handleJidAndPodUid` (the job-id extractor and
recorder, declared outside this excerpt) parses the raw scheduler output
into a job identifier and, on success, records the pod-to-job association in
the tracking store; on extraction failure it returns the error and adds no
entry for the pod. -/
def handleJidAndPodUid (extract : Except String String) (podUID : String)
    (store : JIDStore) : Except String String × JIDStore :=
  match extract with
  | .ok jid => (.ok jid, (podUID, jid) :: store)
  | .error e => (.error e, store)

/-- Modelled from the spec: `deleteContainer` (the cleanup collaborator,
cancel plus purge) performs a best-effort cancellation of the scheduler job
of the pod and removes the pod entry from the tracking store; its errors are
logged, never propagated. -/
def deleteContainer (podUID : String) (store : JIDStore) : JIDStore :=
  List.filter (fun p => p.1 != podUID) store

/-- Outcome of one `SubmitHandler` run: the observable actions in order, the
response written to the caller (`none` when the handler returns without
writing one), the tracking store afterwards, and the final value of the
internal `statusCode` variable. -/
structure HandlerResult where
  events : List Ev
  response : Option Resp
  JIDs : JIDStore
  statusCode : Nat
deriving DecidableEq, Repr

/-- The working directory `filesPath` of a pod (Create.go line 101):
`h.Config.DataRootFolder + data.Pod.Namespace + "-" + string(data.Pod.UID)`. -/
def handlerFilesPath (config : SlurmConfig) (pod : Pod) : String :=
  config.DataRootFolder ++ pod.podNamespace ++ "-" ++ pod.uid

/-- The per-container loop of `SubmitHandler` (Create.go lines 115-195):
for each container, run the aggregation step, call `prepareMounts` (aborting
with `os.RemoveAll(filesPath)` on failure), then `prepareEnvs`,
`prepareImage` and the runtime `prepareCommand`, and assemble the container
command. Returns the emitted events, the aggregation state reached, and
either the assembled command list or the first mount error. -/
def processLoop (config : SlurmConfig) (col : Collab)
    (podUID filesPath : String) :
    List Container → AggState →
      List Ev × AggState × Except String (List (List String))
  | [], s => ([], s, .ok [])
  | container :: rest, s =>
    let s1 := aggStep s container
    match col.prepareMounts container with
    | .error e =>
      ([.evPrepareMounts container.name, .evRemoveAll filesPath], s1, .error e)
    | .ok mounts =>
      let envs := col.prepareEnvs container
      let image := col.prepareImage container
      let commstr1 := col.prepareCommand container
      let runtime_command := assembleCommand config.ContainerRuntime commstr1
        envs mounts image (container.name ++ podUID)
      let r := processLoop config col podUID filesPath rest s1
      (.evPrepareMounts container.name :: .evPrepareEnvs container.name ::
          .evPrepareImage container.name :: .evPrepareCommand container.name ::
          r.1,
       r.2.1,
       match r.2.2 with
       | .error e => .error e
       | .ok cmds => .ok (runtime_command :: cmds))

/-- The loop of `SubmitHandler` applied to the pod's containers,
init-containers first (Create.go lines 98-99). -/
def handlerLoop (config : SlurmConfig) (col : Collab) (pod : Pod) :
    List Ev × AggState × Except String (List (List String)) :=
  processLoop config col pod.uid (handlerFilesPath config pod)
    (pod.initContainers ++ pod.containers) aggInit

/-- Embedding of `SubmitHandler` (Create.go lines 61-248). Stages in program
order: read the request body; select the runtime; decode the pod; run the
per-container loop; generate the script (on failure: log, remove the
directory and return WITHOUT writing a response); submit the batch job;
extract and record the job id (on failure: respond, remove the directory,
then best-effort `deleteContainer`); serialize and write the success
response. `handleError` reports 504 Gateway Timeout on the unmarshal, mount,
submit and job-id paths even though `statusCode` is set to 500 there. -/
def submitHandler (config : SlurmConfig) (col : Collab) (store0 : JIDStore) :
    HandlerResult :=
  match col.readBody with
  | .error _ =>
    { events := [], response := some (.errResp 500), JIDs := store0,
      statusCode := 500 }
  | .ok bodyBytes =>
    match createRuntime config.ContainerRuntime with
    | .error _ =>
      { events := [.evCreateRuntime], response := some (.errResp 500),
        JIDs := store0, statusCode := 500 }
    | .ok _ =>
      match col.unmarshal bodyBytes with
      | .error _ =>
        { events := [.evCreateRuntime], response := some (.errResp 504),
          JIDs := store0, statusCode := 500 }
      | .ok pod =>
        let filesPath := handlerFilesPath config pod
        let r := handlerLoop config col pod
        match r.2.2 with
        | .error _ =>
          { events := .evCreateRuntime :: r.1,
            response := some (.errResp 504), JIDs := store0,
            statusCode := 500 }
        | .ok runtime_command_pod =>
          match col.produceSLURMScript runtime_command_pod r.2.1.rlCPU
              r.2.1.rlMemory r.2.1.isDefaultCPU r.2.1.isDefaultRam with
          | .error _ =>
            { events := .evCreateRuntime :: r.1
                ++ [.evProduceScript, .evRemoveAll filesPath],
              response := none, JIDs := store0, statusCode := 200 }
          | .ok path =>
            match col.slurmBatchSubmit path with
            | .error _ =>
              { events := .evCreateRuntime :: r.1
                  ++ [.evProduceScript, .evSubmit, .evRemoveAll filesPath],
                response := some (.errResp 504), JIDs := store0,
                statusCode := 500 }
            | .ok out =>
              match handleJidAndPodUid (col.extractJid out) pod.uid store0 with
              | (.error _, store1) =>
                { events := .evCreateRuntime :: r.1
                    ++ [.evProduceScript, .evSubmit, .evHandleJid,
                        .evRemoveAll filesPath, .evDeleteContainer pod.uid],
                  response := some (.errResp 504),
                  JIDs := deleteContainer pod.uid store1, statusCode := 500 }
              | (.ok jid, store1) =>
                match col.marshalJid pod.uid jid with
                | .error _ =>
                  { events := .evCreateRuntime :: r.1
                      ++ [.evProduceScript, .evSubmit, .evHandleJid],
                    response := some (.errResp 500), JIDs := store1,
                    statusCode := 500 }
                | .ok returnedJIDBytes =>
                  { events := .evCreateRuntime :: r.1
                      ++ [.evProduceScript, .evSubmit, .evHandleJid],
                    response := some (.okResp 200 returnedJIDBytes),
                    JIDs := store1, statusCode := 200 }

theorem processLoop_mem (config : SlurmConfig) (col : Collab)
    (podUID filesPath : String) :
    ∀ (l : List Container) (s : AggState) (e : Ev),
      e ∈ (processLoop config col podUID filesPath l s).1 →
      isContainerEv e = true ∨ e = Ev.evRemoveAll filesPath := by
  intro l
  induction l with
  | nil => intro s e he; simp [processLoop] at he
  | cons c rest ih =>
    intro s e he
    rcases hm : col.prepareMounts c with em | m
    · simp only [processLoop, hm, List.mem_cons, List.not_mem_nil,
        or_false] at he
      rcases he with rfl | rfl
      · exact Or.inl rfl
      · exact Or.inr rfl
    · simp only [processLoop, hm, List.mem_cons] at he
      rcases he with rfl | rfl | rfl | rfl | hmem
      · exact Or.inl rfl
      · exact Or.inl rfl
      · exact Or.inl rfl
      · exact Or.inl rfl
      · exact ih (aggStep s c) e hmem

theorem processLoop_ok_iff (config : SlurmConfig) (col : Collab)
    (podUID filesPath : String) :
    ∀ (l : List Container) (s : AggState),
      (∃ cmds, (processLoop config col podUID filesPath l s).2.2 = .ok cmds) ↔
      ∀ c ∈ l, ∃ m, col.prepareMounts c = .ok m := by
  intro l
  induction l with
  | nil =>
    intro s
    constructor
    · intro _ c hc
      exact absurd hc (List.not_mem_nil c)
    · intro _
      exact ⟨[], rfl⟩
  | cons c rest ih =>
    intro s
    rcases hm : col.prepareMounts c with em | m
    · constructor
      · rintro ⟨cmds, hcmds⟩
        simp [processLoop, hm] at hcmds
      · intro hall
        obtain ⟨m, hm2⟩ := hall c (by simp)
        rw [hm] at hm2
        simp at hm2
    · constructor
      · rintro ⟨cmds, hcmds⟩
        intro d hd
        rcases List.mem_cons.mp hd with rfl | hd2
        · exact ⟨m, hm⟩
        · refine (ih (aggStep s c)).mp ?_ d hd2
          simp only [processLoop, hm] at hcmds
          rcases hres : (processLoop config col podUID filesPath rest
              (aggStep s c)).2.2 with e2 | cmds2
          · rw [hres] at hcmds
            simp at hcmds
          · exact ⟨cmds2, rfl⟩
      · intro hall
        obtain ⟨cmds2, hres⟩ :=
          (ih (aggStep s c)).mpr fun d hd => hall d (by simp [hd])
        refine ⟨assembleCommand config.ContainerRuntime (col.prepareCommand c)
            (col.prepareEnvs c) m (col.prepareImage c) (c.name ++ podUID)
              :: cmds2, ?_⟩
        simp only [processLoop, hm, hres]

theorem processLoop_err_removeAll (config : SlurmConfig) (col : Collab)
    (podUID filesPath : String) :
    ∀ (l : List Container) (s : AggState),
      (∃ c ∈ l, ∃ e, col.prepareMounts c = .error e) →
      Ev.evRemoveAll filesPath ∈
        (processLoop config col podUID filesPath l s).1 := by
  intro l
  induction l with
  | nil =>
    rintro s ⟨c, hc, _⟩
    exact absurd hc (List.not_mem_nil c)
  | cons c rest ih =>
    rintro s ⟨d, hd, e, he⟩
    rcases hm : col.prepareMounts c with em | m
    · simp [processLoop, hm]
    · rcases List.mem_cons.mp hd with rfl | hd2
      · rw [hm] at he
        simp at he
      · have hrec := ih (aggStep s c) ⟨d, hd2, e, he⟩
        simp only [processLoop, hm, List.mem_cons]
        exact Or.inr (Or.inr (Or.inr (Or.inr hrec)))

theorem storeLookup_deleteContainer (store : JIDStore) (podUID : String) :
    storeLookup (deleteContainer podUID store) podUID = none := by
  unfold deleteContainer
  induction store with
  | nil => rfl
  | cons p rest ih =>
    rw [List.filter_cons]
    by_cases hp : p.1 = podUID
    · have hb : (p.1 != podUID) = false := by simp [hp]
      rw [hb]
      simpa using ih
    · have hb : (p.1 != podUID) = true := by simp [hp]
      rw [hb]
      simpa [storeLookup, hp] using ih

/-- Claim C10: the handler reports 504 Gateway Timeout on unmarshal, mount,
submit and job-id-recording failures while the internal `statusCode`
variable holds 500; body-read, unknown-runtime and response-marshal failures
report 500. -/
theorem claim_C10 (config : SlurmConfig) (col : Collab) (store0 : JIDStore) :
    (∀ e, col.readBody = .error e →
        (submitHandler config col store0).response = some (.errResp 500) ∧
        (submitHandler config col store0).statusCode = 500) ∧
    (∀ body e, col.readBody = .ok body →
        createRuntime config.ContainerRuntime = .error e →
        (submitHandler config col store0).response = some (.errResp 500) ∧
        (submitHandler config col store0).statusCode = 500) ∧
    (∀ body rt e, col.readBody = .ok body →
        createRuntime config.ContainerRuntime = .ok rt →
        col.unmarshal body = .error e →
        (submitHandler config col store0).response = some (.errResp 504) ∧
        (submitHandler config col store0).statusCode = 500) ∧
    (∀ body rt pod, col.readBody = .ok body →
        createRuntime config.ContainerRuntime = .ok rt →
        col.unmarshal body = .ok pod →
        (∃ c ∈ pod.initContainers ++ pod.containers,
            ∃ e, col.prepareMounts c = .error e) →
        (submitHandler config col store0).response = some (.errResp 504) ∧
        (submitHandler config col store0).statusCode = 500) ∧
    (∀ body rt pod cmds path e, col.readBody = .ok body →
        createRuntime config.ContainerRuntime = .ok rt →
        col.unmarshal body = .ok pod →
        (handlerLoop config col pod).2.2 = .ok cmds →
        col.produceSLURMScript cmds (handlerLoop config col pod).2.1.rlCPU
            (handlerLoop config col pod).2.1.rlMemory
            (handlerLoop config col pod).2.1.isDefaultCPU
            (handlerLoop config col pod).2.1.isDefaultRam = .ok path →
        col.slurmBatchSubmit path = .error e →
        (submitHandler config col store0).response = some (.errResp 504) ∧
        (submitHandler config col store0).statusCode = 500) ∧
    (∀ body rt pod cmds path out e, col.readBody = .ok body →
        createRuntime config.ContainerRuntime = .ok rt →
        col.unmarshal body = .ok pod →
        (handlerLoop config col pod).2.2 = .ok cmds →
        col.produceSLURMScript cmds (handlerLoop config col pod).2.1.rlCPU
            (handlerLoop config col pod).2.1.rlMemory
            (handlerLoop config col pod).2.1.isDefaultCPU
            (handlerLoop config col pod).2.1.isDefaultRam = .ok path →
        col.slurmBatchSubmit path = .ok out →
        col.extractJid out = .error e →
        (submitHandler config col store0).response = some (.errResp 504) ∧
        (submitHandler config col store0).statusCode = 500) ∧
    (∀ body rt pod cmds path out jid e, col.readBody = .ok body →
        createRuntime config.ContainerRuntime = .ok rt →
        col.unmarshal body = .ok pod →
        (handlerLoop config col pod).2.2 = .ok cmds →
        col.produceSLURMScript cmds (handlerLoop config col pod).2.1.rlCPU
            (handlerLoop config col pod).2.1.rlMemory
            (handlerLoop config col pod).2.1.isDefaultCPU
            (handlerLoop config col pod).2.1.isDefaultRam = .ok path →
        col.slurmBatchSubmit path = .ok out →
        col.extractJid out = .ok jid →
        col.marshalJid pod.uid jid = .error e →
        (submitHandler config col store0).response = some (.errResp 500) ∧
        (submitHandler config col store0).statusCode = 500) := by
  refine ⟨?_, ?_, ?_, ?_, ?_, ?_, ?_⟩
  · intro e hb
    simp only [submitHandler, hb]
    exact ⟨trivial, trivial⟩
  · intro body e hb hcr
    simp only [submitHandler, hb, hcr]
    exact ⟨trivial, trivial⟩
  · intro body rt e hb hcr hu
    simp only [submitHandler, hb, hcr, hu]
    exact ⟨trivial, trivial⟩
  · intro body rt pod hb hcr hu hex
    rcases hres : (handlerLoop config col pod).2.2 with e2 | cmds
    · simp only [submitHandler, hb, hcr, hu, hres]
      exact ⟨trivial, trivial⟩
    · exfalso
      obtain ⟨c, hcmem, e2, he2⟩ := hex
      obtain ⟨m, hm⟩ := (processLoop_ok_iff config col pod.uid
          (handlerFilesPath config pod) (pod.initContainers ++ pod.containers)
          aggInit).mp ⟨cmds, hres⟩ c hcmem
      rw [hm] at he2
      simp at he2
  · intro body rt pod cmds path e hb hcr hu hres hscript hsub
    simp only [submitHandler, hb, hcr, hu, hres, hscript, hsub]
    exact ⟨trivial, trivial⟩
  · intro body rt pod cmds path out e hb hcr hu hres hscript hsub hjid
    simp only [submitHandler, hb, hcr, hu, hres, hscript, hsub, hjid,
      handleJidAndPodUid]
    exact ⟨trivial, trivial⟩
  · intro body rt pod cmds path out jid e hb hcr hu hres hscript hsub hjid hmj
    simp only [submitHandler, hb, hcr, hu, hres, hscript, hsub, hjid, hmj,
      handleJidAndPodUid]
    exact ⟨trivial, trivial⟩

/-- Concrete pod with one regular container, for witnesses. -/
def podC : Pod :=
  { uid := "uid1", podNamespace := "ns", initContainers := [],
    containers := [{ name := "c1", cpu := 1, mem := 1024 }] }

/-- Concrete configuration with the singularity runtime. -/
def cfgC : SlurmConfig :=
  { ContainerRuntime := "singularity", DataRootFolder := "/root/" }

/-- Concrete configuration with an unsupported runtime name. -/
def cfgBadRuntime : SlurmConfig :=
  { ContainerRuntime := "docker", DataRootFolder := "/root/" }

/-- Collaborator oracle on which every call succeeds. -/
def colOk : Collab :=
  { readBody := .ok "body",
    unmarshal := fun _ => .ok podC,
    prepareMounts := fun _ => .ok "--bind /a:/b",
    prepareEnvs := fun _ => ["--env A=1"],
    prepareImage := fun _ => "docker://img",
    prepareCommand := fun _ => ["singularity", "exec"],
    produceSLURMScript := fun _ _ _ _ _ => .ok "/root/ns-uid1/job.sh",
    slurmBatchSubmit := fun _ => .ok "Submitted batch job 42",
    extractJid := fun _ => .ok "42",
    marshalJid := fun u j => .ok ("PodUID " ++ u ++ " PodJID " ++ j) }

/-- Collaborator oracle whose script generation fails. -/
def colScriptFail : Collab :=
  { colOk with produceSLURMScript := fun _ _ _ _ _ => .error "write error" }

/-- Collaborator oracle whose job-id extraction fails. -/
def colJidFail : Collab :=
  { colOk with extractJid := fun _ => .error "no jid" }

/-- Collaborator oracle whose mount preparation fails. -/
def colMountsFail : Collab :=
  { colOk with prepareMounts := fun _ => .error "mount error" }

/-- Collaborator oracle whose pod decoding fails. -/
def colUnmarshalFail : Collab :=
  { colOk with unmarshal := fun _ => .error "bad json" }

/-- Claim C2 (code bug): on a script-generation failure the handler writes
NO response at all — it logs the error, removes the working directory and
returns — whereas the claim requires an error response on every internal
failure; the success path does write the serialized pod/job identifier
pair. -/
theorem claim_C2 :
    (submitHandler cfgC colScriptFail []).response = none ∧
    (submitHandler cfgC colScriptFail []).events
        = [Ev.evCreateRuntime, Ev.evPrepareMounts "c1", Ev.evPrepareEnvs "c1",
           Ev.evPrepareImage "c1", Ev.evPrepareCommand "c1",
           Ev.evProduceScript, Ev.evRemoveAll "/root/ns-uid1"] ∧
    (submitHandler cfgC colOk []).response
        = some (.okResp 200 "PodUID uid1 PodJID 42") :=
  ⟨rfl, rfl, rfl⟩

/-- Claim C4: no scheduler-visible side effect (script generation, job
submission) occurs unless mount preparation succeeded for every container,
and a mount failure aborts the submission with the directory removed, no
store entry and an error response. -/
theorem claim_C4 (config : SlurmConfig) (col : Collab) (store0 : JIDStore)
    (body : String) (rt : Runtime) (pod : Pod)
    (hb : col.readBody = .ok body)
    (hcr : createRuntime config.ContainerRuntime = .ok rt)
    (hu : col.unmarshal body = .ok pod) :
    ((∃ c ∈ pod.initContainers ++ pod.containers,
        ∃ e, col.prepareMounts c = .error e) →
      Ev.evProduceScript ∉ (submitHandler config col store0).events ∧
      Ev.evSubmit ∉ (submitHandler config col store0).events ∧
      (submitHandler config col store0).JIDs = store0 ∧
      Ev.evRemoveAll (handlerFilesPath config pod)
          ∈ (submitHandler config col store0).events ∧
      (submitHandler config col store0).response = some (.errResp 504)) ∧
    (Ev.evProduceScript ∈ (submitHandler config col store0).events →
      ∀ c ∈ pod.initContainers ++ pod.containers,
        ∃ m, col.prepareMounts c = .ok m) ∧
    (Ev.evSubmit ∈ (submitHandler config col store0).events →
      ∀ c ∈ pod.initContainers ++ pod.containers,
        ∃ m, col.prepareMounts c = .ok m) := by
  have hnotin : ∀ e2 : Ev, isContainerEv e2 = false →
      (∀ p, e2 ≠ Ev.evRemoveAll p) →
      e2 ∉ (handlerLoop config col pod).1 := by
    intro e2 hce hre hmem
    rcases processLoop_mem config col pod.uid (handlerFilesPath config pod)
        (pod.initContainers ++ pod.containers) aggInit e2 hmem with hc | hc
    · rw [hce] at hc
      cases hc
    · exact hre _ hc
  rcases hres : (handlerLoop config col pod).2.2 with e0 | cmds
  · have hev : (submitHandler config col store0).events
        = Ev.evCreateRuntime :: (handlerLoop config col pod).1 := by
      simp only [submitHandler, hb, hcr, hu, hres]
    refine ⟨?_, ?_, ?_⟩
    · intro hex
      refine ⟨?_, ?_, ?_, ?_, ?_⟩
      · rw [hev]
        intro hmem
        rcases List.mem_cons.mp hmem with h0 | h0
        · simp at h0
        · exact hnotin Ev.evProduceScript rfl (fun p hp => Ev.noConfusion hp) h0
      · rw [hev]
        intro hmem
        rcases List.mem_cons.mp hmem with h0 | h0
        · simp at h0
        · exact hnotin Ev.evSubmit rfl (fun p hp => Ev.noConfusion hp) h0
      · simp only [submitHandler, hb, hcr, hu, hres]
      · rw [hev]
        refine List.mem_cons.mpr (Or.inr ?_)
        exact processLoop_err_removeAll config col pod.uid
          (handlerFilesPath config pod) (pod.initContainers ++ pod.containers)
          aggInit hex
      · simp only [submitHandler, hb, hcr, hu, hres]
    · intro hmem
      exfalso
      rw [hev] at hmem
      rcases List.mem_cons.mp hmem with h0 | h0
      · simp at h0
      · exact hnotin Ev.evProduceScript rfl (fun p hp => Ev.noConfusion hp) h0
    · intro hmem
      exfalso
      rw [hev] at hmem
      rcases List.mem_cons.mp hmem with h0 | h0
      · simp at h0
      · exact hnotin Ev.evSubmit rfl (fun p hp => Ev.noConfusion hp) h0
  · have hall : ∀ c ∈ pod.initContainers ++ pod.containers,
        ∃ m, col.prepareMounts c = .ok m :=
      (processLoop_ok_iff config col pod.uid (handlerFilesPath config pod)
        (pod.initContainers ++ pod.containers) aggInit).mp ⟨cmds, hres⟩
    refine ⟨?_, fun _ => hall, fun _ => hall⟩
    intro hex
    exfalso
    obtain ⟨c, hcmem, e2, he2⟩ := hex
    obtain ⟨m, hm⟩ := hall c hcmem
    rw [hm] at he2
    simp at he2

/-- Claim C4 witness: the abort behaviour observed at a concrete pod whose
mount preparation fails. -/
theorem claim_C4_witness :
    Ev.evProduceScript ∉ (submitHandler cfgC colMountsFail []).events ∧
    (submitHandler cfgC colMountsFail []).JIDs = ([] : JIDStore) := by
  have h := (claim_C4 cfgC colMountsFail [] "body" Runtime.SingularityRuntime
      podC rfl rfl rfl).1
      ⟨{ name := "c1", cpu := 1, mem := 1024 }, by decide, "mount error", rfl⟩
  exact ⟨h.1, h.2.2.1⟩

/-- Claim C3, amended: when job-id extraction fails after a successful
submission, the handler responds with the failure, removes the working
directory, and THEN invokes the best-effort cancellation `deleteContainer`
exactly once with the pod's identifier — the cancellation is attempted after
the directory removal, not before it as the claim states — and the
job-tracking store afterwards contains no entry for the pod. -/
theorem claim_C3 (config : SlurmConfig) (col : Collab) (store0 : JIDStore)
    (body : String) (rt : Runtime) (pod : Pod) (cmds : List (List String))
    (path out e : String)
    (hb : col.readBody = .ok body)
    (hcr : createRuntime config.ContainerRuntime = .ok rt)
    (hu : col.unmarshal body = .ok pod)
    (hres : (handlerLoop config col pod).2.2 = .ok cmds)
    (hscript : col.produceSLURMScript cmds (handlerLoop config col pod).2.1.rlCPU
        (handlerLoop config col pod).2.1.rlMemory
        (handlerLoop config col pod).2.1.isDefaultCPU
        (handlerLoop config col pod).2.1.isDefaultRam = .ok path)
    (hsub : col.slurmBatchSubmit path = .ok out)
    (hjid : col.extractJid out = .error e) :
    (submitHandler config col store0).events
        = Ev.evCreateRuntime :: (handlerLoop config col pod).1
            ++ [Ev.evProduceScript, Ev.evSubmit, Ev.evHandleJid,
                Ev.evRemoveAll (handlerFilesPath config pod),
                Ev.evDeleteContainer pod.uid] ∧
    (submitHandler config col store0).events.count
        (Ev.evDeleteContainer pod.uid) = 1 ∧
    storeLookup (submitHandler config col store0).JIDs pod.uid = none ∧
    (submitHandler config col store0).response = some (.errResp 504) := by
  have hR : submitHandler config col store0
      = { events := Ev.evCreateRuntime :: (handlerLoop config col pod).1
            ++ [Ev.evProduceScript, Ev.evSubmit, Ev.evHandleJid,
                Ev.evRemoveAll (handlerFilesPath config pod),
                Ev.evDeleteContainer pod.uid],
          response := some (.errResp 504),
          JIDs := deleteContainer pod.uid store0, statusCode := 500 } := by
    simp only [submitHandler, hb, hcr, hu, hres, hscript, hsub, hjid,
      handleJidAndPodUid]
  have hno : Ev.evDeleteContainer pod.uid ∉ (handlerLoop config col pod).1 := by
    intro hmem
    rcases processLoop_mem config col pod.uid (handlerFilesPath config pod)
        (pod.initContainers ++ pod.containers) aggInit
        (Ev.evDeleteContainer pod.uid) hmem with hc | hc
    · simp [isContainerEv] at hc
    · exact Ev.noConfusion hc
  refine ⟨?_, ?_, ?_, ?_⟩
  · rw [hR]
  · rw [hR]
    simp only [List.count_cons, List.count_append,
      List.count_eq_zero.mpr hno]
    simp
  · rw [hR]
    exact storeLookup_deleteContainer store0 pod.uid
  · rw [hR]

/-- Claim C3 counterexample: at a concrete jid-extraction failure the
directory removal `os.RemoveAll(filesPath)` happens strictly BEFORE the
cancellation `deleteContainer`, contradicting the claimed
cancellation-before-removal ordering. -/
theorem claim_C3_counterexample :
    (submitHandler cfgC colJidFail []).events
        = [Ev.evCreateRuntime, Ev.evPrepareMounts "c1", Ev.evPrepareEnvs "c1",
           Ev.evPrepareImage "c1", Ev.evPrepareCommand "c1",
           Ev.evProduceScript, Ev.evSubmit, Ev.evHandleJid,
           Ev.evRemoveAll "/root/ns-uid1", Ev.evDeleteContainer "uid1"] ∧
    (submitHandler cfgC colJidFail []).events.indexOf
        (Ev.evRemoveAll "/root/ns-uid1")
      < (submitHandler cfgC colJidFail []).events.indexOf
        (Ev.evDeleteContainer "uid1") :=
  ⟨rfl, by decide⟩

/-- Claim C3 witness: the amended statement at a concrete failing run. -/
theorem claim_C3_witness :
    storeLookup (submitHandler cfgC colJidFail []).JIDs "uid1" = none ∧
    (submitHandler cfgC colJidFail []).response = some (.errResp 504) := by
  have h := claim_C3 cfgC colJidFail [] "body" Runtime.SingularityRuntime podC
      [["singularity", "exec", "--env A=1", "--bind /a:/b", "docker://img"]]
      "/root/ns-uid1/job.sh" "Submitted batch job 42" "no jid"
      rfl rfl rfl rfl rfl rfl rfl
  exact ⟨h.2.2.1, h.2.2.2⟩

/-- Claim C7: `createRuntime` succeeds exactly for the names `singularity`
and `enroot`; the handler performs the check once, before any per-container
work, and an unsupported name fails the submission with no container-level
work done and the store untouched. -/
theorem claim_C7 :
    (∀ name, (∃ rt, createRuntime name = .ok rt) ↔
        (name = "singularity" ∨ name = "enroot")) ∧
    (∀ (config : SlurmConfig) (col : Collab) (store0 : JIDStore),
        (∀ rt, createRuntime config.ContainerRuntime ≠ .ok rt) →
        (∀ e ∈ (submitHandler config col store0).events,
            e = Ev.evCreateRuntime) ∧
        (∃ code, (submitHandler config col store0).response
            = some (.errResp code)) ∧
        (submitHandler config col store0).JIDs = store0) ∧
    (∀ (config : SlurmConfig) (col : Collab) (store0 : JIDStore),
        (submitHandler config col store0).events = [] ∨
        ∃ tl, (submitHandler config col store0).events
            = Ev.evCreateRuntime :: tl ∧ Ev.evCreateRuntime ∉ tl) := by
  refine ⟨?_, ?_, ?_⟩
  · intro name
    constructor
    · rintro ⟨rt, hrt⟩
      unfold createRuntime at hrt
      split_ifs at hrt with h1 h2
      · exact Or.inl h1
      · exact Or.inr h2
    · intro hn
      rcases hn with rfl | rfl
      · exact ⟨.SingularityRuntime, rfl⟩
      · exact ⟨.EnrootRuntime, rfl⟩
  · intro config col store0 hne
    rcases hcr : createRuntime config.ContainerRuntime with e0 | rt
    · rcases hb : col.readBody with e1 | body
      · refine ⟨?_, ⟨500, ?_⟩, ?_⟩
        · intro e he
          simp only [submitHandler, hb] at he
          exact absurd he (List.not_mem_nil e)
        · simp only [submitHandler, hb]
        · simp only [submitHandler, hb]
      · refine ⟨?_, ⟨500, ?_⟩, ?_⟩
        · intro e he
          simp only [submitHandler, hb, hcr] at he
          rcases List.mem_cons.mp he with rfl | h0
          · rfl
          · exact absurd h0 (List.not_mem_nil e)
        · simp only [submitHandler, hb, hcr]
        · simp only [submitHandler, hb, hcr]
    · exact absurd hcr (hne rt)
  · intro config col store0
    rcases hb : col.readBody with e1 | body
    · left
      simp only [submitHandler, hb]
    · right
      rcases hcr : createRuntime config.ContainerRuntime with e0 | rt
      · exact ⟨[], by simp only [submitHandler, hb, hcr], by simp⟩
      · rcases hu : col.unmarshal body with e2 | pod
        · exact ⟨[], by simp only [submitHandler, hb, hcr, hu], by simp⟩
        · have hnl : Ev.evCreateRuntime ∉ (handlerLoop config col pod).1 := by
            intro hmem
            rcases processLoop_mem config col pod.uid
                (handlerFilesPath config pod)
                (pod.initContainers ++ pod.containers) aggInit
                Ev.evCreateRuntime hmem with hc | hc
            · simp [isContainerEv] at hc
            · exact Ev.noConfusion hc
          rcases hres : (handlerLoop config col pod).2.2 with e3 | cmds
          · refine ⟨(handlerLoop config col pod).1,
              by simp only [submitHandler, hb, hcr, hu, hres, List.cons_append], hnl⟩
          · rcases hscript : col.produceSLURMScript cmds
                (handlerLoop config col pod).2.1.rlCPU
                (handlerLoop config col pod).2.1.rlMemory
                (handlerLoop config col pod).2.1.isDefaultCPU
                (handlerLoop config col pod).2.1.isDefaultRam with e4 | path
            · refine ⟨(handlerLoop config col pod).1
                  ++ [.evProduceScript,
                      .evRemoveAll (handlerFilesPath config pod)],
                by simp only [submitHandler, hb, hcr, hu, hres, hscript,
                  List.cons_append], ?_⟩
              intro hmem
              rcases List.mem_append.mp hmem with h0 | h0
              · exact hnl h0
              · simp at h0
            · rcases hsub : col.slurmBatchSubmit path with e5 | out
              · refine ⟨(handlerLoop config col pod).1
                    ++ [.evProduceScript, .evSubmit,
                        .evRemoveAll (handlerFilesPath config pod)],
                  by simp only [submitHandler, hb, hcr, hu, hres, hscript,
                    hsub, List.cons_append], ?_⟩
                intro hmem
                rcases List.mem_append.mp hmem with h0 | h0
                · exact hnl h0
                · simp at h0
              · rcases hjid : col.extractJid out with e6 | jid
                · refine ⟨(handlerLoop config col pod).1
                      ++ [.evProduceScript, .evSubmit, .evHandleJid,
                          .evRemoveAll (handlerFilesPath config pod),
                          .evDeleteContainer pod.uid],
                    by simp only [submitHandler, hb, hcr, hu, hres, hscript,
                      hsub, hjid, handleJidAndPodUid, List.cons_append], ?_⟩
                  intro hmem
                  rcases List.mem_append.mp hmem with h0 | h0
                  · exact hnl h0
                  · simp at h0
                · rcases hmj : col.marshalJid pod.uid jid with e7 | bytes
                  · refine ⟨(handlerLoop config col pod).1
                        ++ [.evProduceScript, .evSubmit, .evHandleJid],
                      by simp only [submitHandler, hb, hcr, hu, hres, hscript,
                        hsub, hjid, hmj, handleJidAndPodUid, List.cons_append], ?_⟩
                    intro hmem
                    rcases List.mem_append.mp hmem with h0 | h0
                    · exact hnl h0
                    · simp at h0
                  · refine ⟨(handlerLoop config col pod).1
                        ++ [.evProduceScript, .evSubmit, .evHandleJid],
                      by simp only [submitHandler, hb, hcr, hu, hres, hscript,
                        hsub, hjid, hmj, handleJidAndPodUid, List.cons_append], ?_⟩
                    intro hmem
                    rcases List.mem_append.mp hmem with h0 | h0
                    · exact hnl h0
                    · simp at h0

/-- Claim C7 witness: runtime selection evaluated at a concrete unsupported
name and the fail-fast behaviour of a concrete handler run. -/
theorem claim_C7_witness :
    ((∃ rt, createRuntime "docker" = .ok rt) ↔
        ("docker" = "singularity" ∨ "docker" = "enroot")) ∧
    (submitHandler cfgBadRuntime colOk []).JIDs = ([] : JIDStore) := by
  refine ⟨claim_C7.1 "docker",
    (claim_C7.2.1 cfgBadRuntime colOk [] ?_).2.2⟩
  intro rt hrt
  cases rt
  · exact Except.noConfusion hrt
  · exact Except.noConfusion hrt

/-- Claim C10 witness: the 504-report with internal 500 observed at a
concrete unmarshal failure. -/
theorem claim_C10_witness :
    (submitHandler cfgC colUnmarshalFail []).response = some (.errResp 504) ∧
    (submitHandler cfgC colUnmarshalFail []).statusCode = 500 :=
  (claim_C10 cfgC colUnmarshalFail []).2.2.1 "body" Runtime.SingularityRuntime
    "bad json" rfl rfl rfl
